import Mathlib

/-!
Shallow embedding of the workflow engine in `src/src/server/api/routers/workflow.ts`
over the relational state declared in `src/src/server/db/schema.ts`.

Modelling choices (each traceable to the source):
* Every table of `schema.ts` becomes a list of rows inside a `DB` record; identity
  columns (`generatedByDefaultAsIdentity`) are modelled by a single increasing
  counter `DB.nextId` (per-table sequences are independent in Postgres, but a global
  counter preserves the only fact the code relies on: ids are assigned in ascending
  creation order within each table).
* `defaultNow()` / `new Date()` timestamps are modelled by a logical clock `DB.now`;
  every write performed inside one router call is stamped with the same `DB.now`,
  and each successfully committed call advances the clock by one (serializable
  transactions, one timestamp per transaction).
* Each tRPC mutation becomes `DB → args → Except String (DB × result)`.  A thrown
  `Error` aborts the enclosing `db.transaction`, so an `.error` result carries no
  state: nothing performed before the throw is committed.  Error strings are the
  exact messages thrown by the source.
* `jsonb` payloads (`conditionValue`, `dataModifications`) are never interpreted by
  the code under `src/`; they are modelled as string key/value records.
* The store's declared foreign keys are modelled where a claim's inputs can violate
  them: `createWorkflowTemplate` checks the step-role key and the transition-endpoint
  keys of `schema.ts` (the rejection-step self-reference is commented out there and
  so unconstrained).  The other operations' inserts are modelled as plain appends:
  every state they are evaluated at in this file is referentially consistent, so the
  append model coincides with the constrained store there.
-/

/-- `z.record(z.any())` payloads (`conditionValue`, `dataModifications`): an
uninterpreted record of string keys. -/
abbrev CondValue := List (String × String)

/-- `status` column of `tp_workflow_instances`; `varchar` in the schema, but the only
values the router reads or writes (zod enum in `getAssignedWorkflows`, literal
"ACTIVE" in `startWorkflow`). -/
inductive InstanceStatus where
  | ACTIVE
  | COMPLETED
  | REJECTED
deriving Repr, DecidableEq, BEq

/-- `actionType` values accepted by `takeAction`'s zod enum. -/
inductive ActionType where
  | APPROVE
  | REJECT
  | MODIFY
deriving Repr, DecidableEq, BEq

/-- `status` column of `tp_workflow_step_assignments`. -/
inductive AssignmentStatus where
  | PENDING
  | COMPLETED
deriving Repr, DecidableEq, BEq

/-- Row of `tp_users`. -/
structure User where
  id : String
  name : String
deriving Repr, DecidableEq

/-- Row of `tp_roles` (description and timestamp omitted: never read). -/
structure Role where
  id : Nat
  name : String
deriving Repr, DecidableEq

/-- Row of `tp_user_roles`. -/
structure UserRole where
  userId : String
  roleId : Nat
  isPrimary : Bool
deriving Repr, DecidableEq

/-- Row of `tp_workflow_templates`. -/
structure WorkflowTemplate where
  id : Nat
  name : String
  description : String
  isActive : Bool
  createdAt : Nat
deriving Repr, DecidableEq

/-- Row of `tp_workflow_steps`.  `rejectionStepId` is nullable and — as in the
schema, where its self-reference foreign key is commented out — unconstrained. -/
structure WorkflowStep where
  id : Nat
  workflowTemplateId : Nat
  name : String
  stepOrder : Nat
  roleId : Nat
  isMandatory : Bool
  canModify : Bool
  rejectionStepId : Option Nat
  createdAt : Nat
deriving Repr, DecidableEq

/-- Row of `tp_workflow_step_transitions`. -/
structure WorkflowStepTransition where
  id : Nat
  fromStepId : Nat
  toStepId : Nat
  conditionType : Option String
  conditionValue : Option CondValue
  createdAt : Nat
deriving Repr, DecidableEq

/-- Row of `tp_workflow_instances`. -/
structure WorkflowInstance where
  id : Nat
  workflowTemplateId : Nat
  currentStepId : Nat
  currentAssigneeId : Option String
  entityType : String
  entityId : Nat
  status : InstanceStatus
  createdAt : Nat
  completedAt : Option Nat
deriving Repr, DecidableEq

/-- Row of `tp_workflow_step_assignments`. -/
structure WorkflowStepAssignment where
  id : Nat
  workflowInstanceId : Nat
  stepId : Nat
  assigneeId : String
  status : AssignmentStatus
  assignedAt : Nat
  completedAt : Option Nat
deriving Repr, DecidableEq

/-- Row of `tp_workflow_actions`. -/
structure WorkflowAction where
  id : Nat
  workflowInstanceId : Nat
  stepId : Nat
  userId : String
  actionType : ActionType
  comments : Option String
  dataModifications : Option CondValue
  createdAt : Nat
deriving Repr, DecidableEq

/-- The persisted state: one list of rows per table of `schema.ts`, plus the
identity counter and the transaction clock. -/
structure DB where
  users : List User
  roles : List Role
  userRoles : List UserRole
  templates : List WorkflowTemplate
  steps : List WorkflowStep
  transitions : List WorkflowStepTransition
  instances : List WorkflowInstance
  assignments : List WorkflowStepAssignment
  actions : List WorkflowAction
  nextId : Nat
  now : Nat
deriving Repr, DecidableEq

/-- Relation `fromTransitions` of a step: `workflowStepTransitions` rows whose
`fromStepId` is the step (loaded by `with: \x7b currentStep: \x7b with:
\x7b fromTransitions: true \x7d \x7d \x7d` in `takeAction`). -/
def fromTransitionsOf (db : DB) (stepId : Nat) : List WorkflowStepTransition :=
  db.transitions.filter (fun t => t.fromStepId == stepId)

/-- Advance the transaction clock after a successful commit. -/
def tick (d : DB) : DB := { d with now := d.now + 1 }

/-- Input row of `createWorkflowTemplate.input.steps`. -/
structure StepInput where
  name : String
  stepOrder : Nat
  roleId : Nat
  isMandatory : Bool
  canModify : Bool
  rejectionStepId : Option Nat
deriving Repr, DecidableEq

/-- Input row of `createWorkflowTemplate.input.transitions`. -/
structure TransitionInput where
  fromStepId : Nat
  toStepId : Nat
  conditionType : Option String
  conditionValue : Option CondValue
deriving Repr, DecidableEq

/-- Step rows inserted by `createWorkflowTemplate`: each input step spread into a
row with the fresh template id (`\x7b ...step, workflowTemplateId: template.id \x7d`),
ids assigned in list order. -/
def stepRowsOf (base : Nat) (templateId : Nat) (now : Nat) :
    List StepInput → List WorkflowStep
  | [] => []
  | s :: rest =>
    { id := base, workflowTemplateId := templateId, name := s.name,
      stepOrder := s.stepOrder, roleId := s.roleId, isMandatory := s.isMandatory,
      canModify := s.canModify, rejectionStepId := s.rejectionStepId,
      createdAt := now } :: stepRowsOf (base + 1) templateId now rest

/-- Transition rows inserted by `createWorkflowTemplate`: each input transition
spread into a row unchanged (`\x7b ...transition, createdAt: new Date() \x7d`) — in
particular `fromStepId` / `toStepId` are the caller-supplied numbers, not the ids of
the steps created in the same call. -/
def transRowsOf (base : Nat) (now : Nat) :
    List TransitionInput → List WorkflowStepTransition
  | [] => []
  | t :: rest =>
    { id := base, fromStepId := t.fromStepId, toStepId := t.toStepId,
      conditionType := t.conditionType, conditionValue := t.conditionValue,
      createdAt := now } :: transRowsOf (base + 1) now rest

/-- The store's foreign-key check on a `workflowSteps` row: `roleId` must reference
a `roles` row (`schema.ts:88-90`).  The `rejectionStepId` self-reference is
commented out in the schema, so that column is unconstrained. -/
def stepRowFKOk (db : DB) (s : WorkflowStep) : Bool :=
  db.roles.any (fun r => r.id == s.roleId)

/-- The store's foreign-key check on a `workflowStepTransitions` row: both
endpoints must reference `workflowSteps` rows (`schema.ts:104-109`), evaluated
against the steps visible inside the transaction — the pre-existing ones plus the
ones inserted by the same call. -/
def transRowFKOk (steps : List WorkflowStep) (t : WorkflowStepTransition) : Bool :=
  steps.any (fun s => s.id == t.fromStepId) && steps.any (fun s => s.id == t.toStepId)

/-- `createWorkflowTemplate` (workflow.ts:16-77).  One transaction: insert the
template, insert every step with the new template id, and — only when the step list
is non-empty (`if (steps.length > 0)`) — insert every transition verbatim.  The
source performs no application-level validation; the call can still abort three
ways, all rolling the transaction back:
* a step row violating the role foreign key is rejected by the store during the
  step inserts;
* when the step list is non-empty but the transition list is empty, drizzle's
  `.values([])` throws client-side ("values() must be called with at least one
  value") — the guard at workflow.ts:66 tests `steps.length`, not
  `transitions.length`;
* a transition row whose endpoints match no step row (pre-existing or just
  inserted) is rejected by the store's endpoint foreign keys.
The only throw written in the source itself ("Workflow template not created")
guards an insert that cannot fail. -/
def createWorkflowTemplate (db : DB) (name description : String)
    (stepsIn : List StepInput) (transIn : List TransitionInput) :
    Except String (DB × WorkflowTemplate) :=
  let template : WorkflowTemplate :=
    { id := db.nextId, name := name, description := description,
      isActive := true, createdAt := db.now }
  let newSteps := stepRowsOf (db.nextId + 1) template.id db.now stepsIn
  if !(newSteps.all (stepRowFKOk db)) then
    .error "insert into workflow_steps violates foreign key constraint"
  else
    let transBase := db.nextId + 1 + stepsIn.length
    if stepsIn.length > 0 then
      if transIn.isEmpty then
        .error "values() must be called with at least one value"
      else
        let newTrans := transRowsOf transBase db.now transIn
        if !(newTrans.all (transRowFKOk (db.steps ++ newSteps))) then
          .error "insert into workflow_step_transitions violates foreign key constraint"
        else
          .ok (tick { db with
              templates := db.templates ++ [template],
              steps := db.steps ++ newSteps,
              transitions := db.transitions ++ newTrans,
              nextId := transBase + newTrans.length }, template)
    else
      .ok (tick { db with
          templates := db.templates ++ [template],
          steps := db.steps ++ newSteps,
          nextId := transBase }, template)

/-- `startWorkflow` (workflow.ts:79-143).  Loads the template with its steps
filtered to `stepOrder = 1` (limit 1); errors when the template is missing or that
filter is empty.  The assignee lookup then runs
`db.query.userRoles.findFirst(\x7b where: eq(workflowSteps.roleId, firstStep.roleId) \x7d)`:
the where clause names a `workflowSteps` column, but drizzle's relational query
builder re-parents every column reference in the root `where` onto the queried
table's alias, and `user_roles` has a column of the same name (`role_id`), so the
emitted filter is `user_roles.role_id = firstStep.roleId` — the first user-role
row holding the entry step's role, errors when that role has no holder.  On
success one ACTIVE instance and one PENDING assignment are inserted. -/
def startWorkflow (db : DB) (templateId : Nat) (entityType : String) (entityId : Nat) :
    Except String (DB × WorkflowInstance) :=
  match db.templates.find? (fun t => t.id == templateId) with
  | none => .error "Workflow template not found or has no steps"
  | some template =>
    match (db.steps.filter
        (fun s => s.workflowTemplateId == template.id && s.stepOrder == 1)).head? with
    | none => .error "Workflow template not found or has no steps"
    | some firstStep =>
      match db.userRoles.find? (fun ur => ur.roleId == firstStep.roleId) with
      | none => .error "No eligible users found for first step"
      | some ur =>
        match db.users.find? (fun u => u.id == ur.userId) with
        | none => .error "No eligible users found for first step"
        | some user =>
          let inst : WorkflowInstance :=
            { id := db.nextId, workflowTemplateId := template.id,
              currentStepId := firstStep.id, currentAssigneeId := some user.id,
              entityType := entityType, entityId := entityId,
              status := .ACTIVE, createdAt := db.now, completedAt := none }
          let assignment : WorkflowStepAssignment :=
            { id := db.nextId + 1, workflowInstanceId := inst.id,
              stepId := firstStep.id, assigneeId := user.id,
              status := .PENDING, assignedAt := db.now, completedAt := none }
          .ok (tick { db with
              instances := db.instances ++ [inst],
              assignments := db.assignments ++ [assignment],
              nextId := db.nextId + 2 }, inst)

/-- Modelled from the spec: the Assignment Resolver (§4.3) used by the two handlers
below, which are themselves not under `src/`.  "Any user holding the given role is
eligible; the engine picks one deterministically (first eligible found)." -/
def resolveAssignee (db : DB) (roleId : Nat) : Option String :=
  (db.userRoles.find? (fun ur => ur.roleId == roleId)).map (fun ur => ur.userId)

/-- The condition predicate of §4.4, "keyed by conditionType, interpreted against
conditionValue and the instance/action context".  The predicate kinds themselves are
left abstract: every theorem quantifies over the evaluator. -/
abbrev CondEval := String → Option CondValue → WorkflowInstance → Bool

/-- §4.4: a transition is satisfied if it has no condition, or its condition
predicate evaluates true. -/
def transitionSatisfied (evalCond : CondEval) (inst : WorkflowInstance)
    (t : WorkflowStepTransition) : Bool :=
  match t.conditionType with
  | none => true
  | some ct => evalCond ct t.conditionValue inst

/-- §4.4: outgoing transitions are evaluated in ascending-identity order; the first
satisfied one wins. -/
def firstSatisfiedTransition (evalCond : CondEval) (inst : WorkflowInstance)
    (ts : List WorkflowStepTransition) : Option WorkflowStepTransition :=
  (ts.insertionSort (fun a b => a.id ≤ b.id)).find? (transitionSatisfied evalCond inst)

/-- Modelled from the spec: `handleApproval` is called by `takeAction`
(workflow.ts:193) but its definition is nowhere under `src/`.  Per §4.4 (APPROVE):
the first satisfied outgoing transition in ascending-identity order advances the
instance to its `toStep`; per §4.3 a new PENDING assignment is created for the
destination (NoEligibleAssigneeError when the destination role has no holder, which
per §7 aborts the whole transaction) and the PENDING assignment of the step being
left is marked COMPLETED.  When no transition is satisfied the instance becomes
COMPLETED with the assignee cleared and the completion time set. -/
def handleApproval (evalCond : CondEval) (db : DB) (inst : WorkflowInstance)
    (transitions : List WorkflowStepTransition) : Except String (DB × WorkflowInstance) :=
  match firstSatisfiedTransition evalCond inst transitions with
  | some t =>
    match db.steps.find? (fun s => s.id == t.toStepId) with
    | none => .error "NotFoundError"
    | some dest =>
      match resolveAssignee db dest.roleId with
      | none => .error "NoEligibleAssigneeError"
      | some uid =>
        let inst' := { inst with currentStepId := dest.id, currentAssigneeId := some uid }
        let newAssignment : WorkflowStepAssignment :=
          { id := db.nextId, workflowInstanceId := inst.id, stepId := dest.id,
            assigneeId := uid, status := .PENDING, assignedAt := db.now,
            completedAt := none }
        .ok ({ db with
            instances := db.instances.map (fun i => if i.id == inst.id then inst' else i),
            assignments := (db.assignments.map (fun a =>
                if a.workflowInstanceId == inst.id && a.stepId == inst.currentStepId
                    && a.status == AssignmentStatus.PENDING then
                  { a with status := .COMPLETED, completedAt := some db.now }
                else a)) ++ [newAssignment],
            nextId := db.nextId + 1 }, inst')
  | none =>
    let inst' := { inst with
      status := .COMPLETED, currentAssigneeId := none, completedAt := some db.now }
    .ok ({ db with
        instances := db.instances.map (fun i => if i.id == inst.id then inst' else i) },
      inst')

/-- Modelled from the spec: `handleRejection` is called by `takeAction`
(workflow.ts:188) but its definition is nowhere under `src/`.  Per §4.4 (REJECT with
a configured rejection target): the instance stays ACTIVE, its current step becomes
the rejection target, and per §4.3 a new PENDING assignment is resolved for the
target's role (NoEligibleAssigneeError aborting the transaction when it has no
holder), the assignment of the step being left becoming COMPLETED. -/
def handleRejection (db : DB) (inst : WorkflowInstance) (rejectionStepId : Nat) :
    Except String (DB × WorkflowInstance) :=
  match db.steps.find? (fun s => s.id == rejectionStepId) with
  | none => .error "NotFoundError"
  | some target =>
    match resolveAssignee db target.roleId with
    | none => .error "NoEligibleAssigneeError"
    | some uid =>
      let inst' := { inst with currentStepId := target.id, currentAssigneeId := some uid }
      let newAssignment : WorkflowStepAssignment :=
        { id := db.nextId, workflowInstanceId := inst.id, stepId := target.id,
          assigneeId := uid, status := .PENDING, assignedAt := db.now,
          completedAt := none }
      .ok ({ db with
          instances := db.instances.map (fun i => if i.id == inst.id then inst' else i),
          assignments := (db.assignments.map (fun a =>
              if a.workflowInstanceId == inst.id && a.stepId == inst.currentStepId
                  && a.status == AssignmentStatus.PENDING then
                { a with status := .COMPLETED, completedAt := some db.now }
              else a)) ++ [newAssignment],
          nextId := db.nextId + 1 }, inst')

/-- The `workflowActions` row inserted by `takeAction` (workflow.ts:172-182):
stamped with the transaction time, recording the step at time of action. -/
def actionRowOf (db : DB) (inst : WorkflowInstance) (userId : String)
    (actionType : ActionType) (comments : Option String)
    (dataModifications : Option CondValue) : WorkflowAction :=
  { id := db.nextId, workflowInstanceId := inst.id, stepId := inst.currentStepId,
    userId := userId, actionType := actionType, comments := comments,
    dataModifications := dataModifications, createdAt := db.now }

/-- `takeAction` (workflow.ts:145-201).  Loads the instance with its current step
and that step's outgoing transitions; errors when missing.  Authorization: the
acting user must equal `currentAssigneeId` (no status check of any kind).  One
`workflowActions` row is then inserted unconditionally.  The branch condition
`input.actionType === "REJECT" && instance.currentStep?.rejectionStepId` is
truthiness on a number: a stored rejection target of `0` (storable, since the
self-reference foreign key is commented out in the schema) is treated as absent.
REJECT without a (truthy) target and MODIFY fall through to `return instance`
unchanged. -/
def takeAction (evalCond : CondEval) (db : DB) (instanceId : Nat) (userId : String)
    (actionType : ActionType) (comments : Option String)
    (dataModifications : Option CondValue) : Except String (DB × WorkflowInstance) :=
  match db.instances.find? (fun i => i.id == instanceId) with
  | none => .error "Workflow instance not found"
  | some inst =>
    if inst.currentAssigneeId ≠ some userId then
      .error "Not authorized to take action on this step"
    else
      let currentStep := db.steps.find? (fun s => s.id == inst.currentStepId)
      let transitions := match currentStep with
        | some s => fromTransitionsOf db s.id
        | none => []
      let action := actionRowOf db inst userId actionType comments dataModifications
      let db1 := { db with actions := db.actions ++ [action], nextId := db.nextId + 1 }
      let result : Except String (DB × WorkflowInstance) :=
        match actionType with
        | .REJECT =>
          match currentStep.bind (fun s => s.rejectionStepId) with
          | some r => if r ≠ 0 then handleRejection db1 inst r else .ok (db1, inst)
          | none => .ok (db1, inst)
        | .APPROVE => handleApproval evalCond db1 inst transitions
        | .MODIFY => .ok (db1, inst)
      result.map (fun p => (tick p.1, p.2))

/-- Result of `getAssignedWorkflows`: an instance enriched with its template,
current step and current assignee (`with: \x7b template: true, currentStep: true,
currentAssignee: true \x7d`). -/
structure EnrichedInstance where
  inst : WorkflowInstance
  template : Option WorkflowTemplate
  currentStep : Option WorkflowStep
  currentAssignee : Option User
deriving Repr, DecidableEq

/-- The `where` filter of `getAssignedWorkflows`:
`and(eq(currentAssigneeId, userId), status ? eq(status, status) : undefined)`. -/
def assignedFilter (userId : String) (status : Option InstanceStatus)
    (i : WorkflowInstance) : Bool :=
  decide (i.currentAssigneeId = some userId) &&
    (match status with
     | some s => decide (i.status = s)
     | none => true)

/-- Enrichment of one instance row with its `one(...)` relations. -/
def enrich (db : DB) (i : WorkflowInstance) : EnrichedInstance :=
  { inst := i,
    template := db.templates.find? (fun t => t.id == i.workflowTemplateId),
    currentStep := db.steps.find? (fun s => s.id == i.currentStepId),
    currentAssignee := i.currentAssigneeId.bind (fun uid => db.users.find? (fun u => u.id == uid)) }

/-- Ordering used by `orderBy: [workflowInstances.createdAt]` (ascending). -/
def createdAtLe (a b : WorkflowInstance) : Prop := a.createdAt ≤ b.createdAt

instance : DecidableRel createdAtLe := fun a b => Nat.decLe a.createdAt b.createdAt

instance : IsTotal WorkflowInstance createdAtLe :=
  ⟨fun a b => Nat.le_total a.createdAt b.createdAt⟩

instance : IsTrans WorkflowInstance createdAtLe :=
  ⟨fun _ _ _ hab hbc => Nat.le_trans hab hbc⟩

/-- `getAssignedWorkflows` (workflow.ts:203-223): a query (no mutation) — the state
component of the result is the input state unchanged. -/
def getAssignedWorkflows (db : DB) (userId : String) (status : Option InstanceStatus) :
    DB × List EnrichedInstance :=
  (db,
    ((db.instances.filter (assignedFilter userId status)).insertionSort createdAtLe).map
      (enrich db))

/-! ## Concrete fixtures

Small database states used by the closed theorems below.  Identity values start
above the ids of pre-seeded rows, mirroring Postgres identity columns. -/

/-- A condition evaluator for the concrete fixtures (every conditioned transition
unsatisfied; the fixtures use unconditioned transitions where satisfaction is
needed, since those are always satisfied). -/
def condFalse : CondEval := fun _ _ _ => false

/-- Helper: the error message of a failed call, `none` for a committed one. -/
def errMsg : Except String (DB × WorkflowInstance) → Option String
  | .error e => some e
  | .ok _ => none

/-- A step with no rejection target and `canModify = false`. -/
def stepNoRejection : WorkflowStep :=
  { id := 10, workflowTemplateId := 1, name := "review", stepOrder := 1, roleId := 1,
    isMandatory := true, canModify := false, rejectionStepId := none, createdAt := 0 }

/-- An ACTIVE instance at `stepNoRejection`, assigned to user `u1`. -/
def instActiveU1 : WorkflowInstance :=
  { id := 1, workflowTemplateId := 1, currentStepId := 10, currentAssigneeId := some "u1",
    entityType := "doc", entityId := 7, status := .ACTIVE, createdAt := 0,
    completedAt := none }

/-- State with one ACTIVE instance at a step with no rejection target. -/
def dbRejectNoTarget : DB :=
  { users := [{ id := "u1", name := "User One" }], roles := [{ id := 1, name := "R1" }],
    userRoles := [{ userId := "u1", roleId := 1, isPrimary := true }],
    templates := [{ id := 1, name := "T", description := "", isActive := true,
                    createdAt := 0 }],
    steps := [stepNoRejection], transitions := [], instances := [instActiveU1],
    assignments := [], actions := [], nextId := 20, now := 5 }

/-- The same state with the instance already COMPLETED (its `currentAssigneeId`
still holding the last assignee). -/
def dbClosedInstance : DB :=
  { dbRejectNoTarget with
    instances := [{ instActiveU1 with status := .COMPLETED, completedAt := some 3 }] }

/-- C2: REJECT on an ACTIVE instance whose current step has no rejection target.
The claim requires status REJECTED, `currentAssignee` cleared and the completion
time set; the code merely inserts the audit row and falls through to
`return instance` (workflow.ts:199) — no branch produces a terminal rejection, and
nothing under `src/` ever writes the status REJECTED. -/
theorem takeAction_reject_without_target_leaves_instance_active :
    (takeAction condFalse dbRejectNoTarget 1 "u1" .REJECT none none).toOption.map
        (fun p => (p.2.status, p.2.currentAssigneeId, p.2.completedAt,
                   p.1.instances, p.1.actions.length)) =
      some (.ACTIVE, some "u1", none, dbRejectNoTarget.instances, 1) := by decide

/-- C3: `takeAction` has no closed-instance guard — a MODIFY against a COMPLETED
instance whose stale `currentAssigneeId` matches the caller is accepted and writes
an audit row, instead of failing with InstanceClosedError and writing nothing. -/
theorem takeAction_on_closed_instance_accepted_and_audited :
    (takeAction condFalse dbClosedInstance 1 "u1" .MODIFY none none).toOption.map
        (fun p => (p.2.status, p.1.actions.length, p.1.instances)) =
      some (.COMPLETED, 1, dbClosedInstance.instances) := by decide

/-- C6: the current step of `dbRejectNoTarget` has `canModify = false`, yet MODIFY
by the current assignee is accepted and audited — `takeAction` never reads
`canModify` and no path raises ForbiddenActionError.  (The second half of the
claim holds: the step does not change and the action is recorded.) -/
theorem takeAction_modify_without_canModify_accepted_and_audited :
    dbRejectNoTarget.steps.all (fun s => !s.canModify) = true ∧
    (takeAction condFalse dbRejectNoTarget 1 "u1" .MODIFY none none).toOption.map
        (fun p => (p.2.currentStepId, p.2.status, p.1.actions.length)) =
      some (10, .ACTIVE, 1) := by decide

/-- C4: `startWorkflow` either commits an instance that is ACTIVE at an order-1
step of the requested template with an assignee who holds that step's required
role — together with exactly one new instance row and one new PENDING assignment
row for that step and assignee — or it fails with one of the two thrown messages
(the first standing for NotFoundError: template missing or without an order-1
step; the second for NoEligibleAssigneeError: the step's role has no holder), and
a failure aborts the transaction, so nothing is created (an `.error` result
carries no state). -/
theorem startWorkflow_entry_step_and_eligible_assignee
    (db : DB) (templateId : Nat) (entityType : String) (entityId : Nat) :
    (∀ db' inst, startWorkflow db templateId entityType entityId = .ok (db', inst) →
      inst.status = .ACTIVE ∧ inst.workflowTemplateId = templateId ∧
      db'.instances = db.instances ++ [inst] ∧
      ∃ step ∈ db.steps,
        step.workflowTemplateId = templateId ∧ step.stepOrder = 1 ∧
        inst.currentStepId = step.id ∧
        ∃ uid, inst.currentAssigneeId = some uid ∧
          (∃ ur ∈ db.userRoles, ur.userId = uid ∧ ur.roleId = step.roleId) ∧
          ∃ asg, db'.assignments = db.assignments ++ [asg] ∧
            asg.workflowInstanceId = inst.id ∧ asg.stepId = step.id ∧
            asg.assigneeId = uid ∧ asg.status = .PENDING) ∧
    (∀ e, startWorkflow db templateId entityType entityId = .error e →
      e = "Workflow template not found or has no steps" ∨
      e = "No eligible users found for first step") := by
  constructor
  · intro db' inst hok
    unfold startWorkflow at hok
    split at hok
    · exact absurd hok (by simp)
    next template htpl =>
      split at hok
      · exact absurd hok (by simp)
      next firstStep hstep =>
        split at hok
        · exact absurd hok (by simp)
        next ur hur =>
          split at hok
          · exact absurd hok (by simp)
          next user huser =>
            have htplid : template.id = templateId := by
              have := List.find?_some htpl
              simpa using this
            have hstepmem : firstStep ∈ db.steps.filter
                (fun s => s.workflowTemplateId == template.id && s.stepOrder == 1) :=
              List.mem_of_mem_head? (Option.mem_def.mpr hstep)
            rw [List.mem_filter] at hstepmem
            obtain ⟨hstepmem, hsteppred⟩ := hstepmem
            simp only [Bool.and_eq_true, beq_iff_eq] at hsteppred
            have hurpred : ur.roleId = firstStep.roleId := by
              have := List.find?_some hur
              simpa using this
            have huserid : user.id = ur.userId := by
              have := List.find?_some huser
              simpa using this
            simp only [Except.ok.injEq, Prod.mk.injEq] at hok
            obtain ⟨hdb, hinst⟩ := hok
            subst hdb
            subst hinst
            refine ⟨rfl, htplid ▸ rfl, rfl, firstStep, hstepmem,
              htplid ▸ hsteppred.1, hsteppred.2, rfl, user.id, rfl,
              ⟨ur, List.mem_of_find?_eq_some hur, huserid.symm, hurpred⟩,
              _, rfl, rfl, rfl, rfl, rfl⟩
  · intro e he
    unfold startWorkflow at he
    split at he
    · exact Or.inl (by simpa using he.symm)
    · split at he
      · exact Or.inl (by simpa using he.symm)
      · split at he
        · exact Or.inr (by simpa using he.symm)
        · split at he
          · exact Or.inr (by simpa using he.symm)
          · exact absurd he (by simp)

/-- Fixture for C7: one role (id 1) and one pre-existing step (id 50) belonging to
another template (id 9). -/
def dbSeededForeignStep : DB :=
  { users := [], roles := [{ id := 1, name := "R1" }], userRoles := [],
    templates := [{ id := 9, name := "Told", description := "", isActive := true,
                    createdAt := 0 }],
    steps := [{ id := 50, workflowTemplateId := 9, name := "foreign", stepOrder := 1,
                roleId := 1, isMandatory := true, canModify := false,
                rejectionStepId := none, createdAt := 0 }],
    transitions := [], instances := [], assignments := [], actions := [],
    nextId := 60, now := 0 }

/-- C7 input: two steps with the same `stepOrder` and a rejection target (77)
referencing nothing — that column carries no store constraint, its foreign key
being commented out in the schema — while the role (1) exists, so the store's
keys are satisfied. -/
def invalidSteps : List StepInput :=
  [{ name := "a", stepOrder := 1, roleId := 1, isMandatory := true, canModify := false,
     rejectionStepId := some 77 },
   { name := "b", stepOrder := 1, roleId := 1, isMandatory := true, canModify := false,
     rejectionStepId := none }]

/-- C7 input: a transition whose endpoints name the pre-existing step 50 of the
OTHER template — outside the supplied step set (the created steps get ids 61 and
62), yet satisfying the endpoint foreign keys. -/
def outsideTransitions : List TransitionInput :=
  [{ fromStepId := 50, toStepId := 50, conditionType := none, conditionValue := none }]

/-- C7 counterexample: duplicate step orders, a rejection edge referencing nothing,
and a transition pointing at another template's step — all outside the supplied
step set — are accepted: the call commits (every store constraint is satisfied)
and persists every row instead of failing with ValidationError. -/
theorem createWorkflowTemplate_accepts_invalid_input :
    (createWorkflowTemplate dbSeededForeignStep "T" "d" invalidSteps
        outsideTransitions).toOption.map
        (fun p => p.1.steps.map
          (fun s => (s.id, s.workflowTemplateId, s.stepOrder, s.rejectionStepId))) =
      some [(50, 9, 1, none), (61, 60, 1, some 77), (62, 60, 1, none)] ∧
    (createWorkflowTemplate dbSeededForeignStep "T" "d" invalidSteps
        outsideTransitions).toOption.map
        (fun p => p.1.transitions.map (fun t => (t.fromStepId, t.toStepId))) =
      some [(50, 50)] := by
  refine ⟨by decide, by decide⟩

/-- Fixture for C8's counterexample: an unconditioned transition from the current
step (id 10) to step 11, whose role 2 has no holder. -/
def dbAdvanceNoHolder : DB :=
  { dbRejectNoTarget with
    steps := [stepNoRejection,
              { stepNoRejection with id := 11, stepOrder := 2, roleId := 2 }],
    transitions := [{ id := 12, fromStepId := 10, toStepId := 11, conditionType := none,
                      conditionValue := none, createdAt := 0 }] }

/-- C8 counterexample: an APPROVE that passes authorization but whose advance finds
no eligible assignee for the destination role aborts the whole transaction
(§7: every error aborts it), so the already-inserted audit row is rolled back —
the accepted call produces zero new audit rows, not exactly one. -/
theorem takeAction_authorized_abort_writes_no_audit_row :
    dbAdvanceNoHolder.instances.map (fun i => i.currentAssigneeId) = [some "u1"] ∧
    errMsg (takeAction condFalse dbAdvanceNoHolder 1 "u1" .APPROVE none none) =
      some "NoEligibleAssigneeError" := by decide

/-! ## Quantified theorems -/

/-- The inserted step rows carry the new template's id and the input's fields,
position by position. -/
theorem stepRowsOf_map_fields (base templateId now : Nat) (l : List StepInput) :
    (stepRowsOf base templateId now l).map
        (fun s => (s.workflowTemplateId, s.stepOrder, s.roleId, s.canModify,
                   s.rejectionStepId))
      = l.map (fun s => (templateId, s.stepOrder, s.roleId, s.canModify,
                         s.rejectionStepId)) := by
  induction l generalizing base with
  | nil => rfl
  | cons s rest ih => simp [stepRowsOf, ih]

/-- The inserted transition rows keep the caller-supplied endpoints, position by
position. -/
theorem transRowsOf_map_endpoints (base now : Nat) (l : List TransitionInput) :
    (transRowsOf base now l).map (fun t => (t.fromStepId, t.toStepId))
      = l.map (fun t => (t.fromStepId, t.toStepId)) := by
  induction l generalizing base with
  | nil => rfl
  | cons t rest ih => simp [transRowsOf, ih]

/-- C5: an action submitted by a user other than the instance's current assignee
fails with the source's UnauthorizedActionError message.  The thrown error aborts
the transaction — an `.error` result carries no state, so no state change and no
action row is committed (the audit insert sits after this check anyway). -/
theorem takeAction_unauthorized_fails_without_write
    (evalCond : CondEval) (db : DB) (instanceId : Nat) (userId : String)
    (actionType : ActionType) (comments : Option String) (dm : Option CondValue)
    (inst : WorkflowInstance)
    (hfind : db.instances.find? (fun i => i.id == instanceId) = some inst)
    (hne : inst.currentAssigneeId ≠ some userId) :
    takeAction evalCond db instanceId userId actionType comments dm =
      .error "Not authorized to take action on this step" := by
  unfold takeAction
  rw [hfind]
  simp [hne]

/-- Witness for C5: user `u9` is not the assignee of instance 1 and is turned
away. -/
theorem takeAction_unauthorized_fails_without_write_witness :
    takeAction condFalse dbRejectNoTarget 1 "u9" .APPROVE none none =
      .error "Not authorized to take action on this step" :=
  takeAction_unauthorized_fails_without_write condFalse dbRejectNoTarget 1 "u9"
    .APPROVE none none instActiveU1 (by decide) (by decide)

/-- The step rows a call inserts satisfy the role foreign key exactly when every
input step names an existing role. -/
theorem stepRowsOf_fk (db : DB) (base templateId now : Nat) (l : List StepInput) :
    (stepRowsOf base templateId now l).all (stepRowFKOk db)
      = l.all (fun s => db.roles.any (fun r => r.id == s.roleId)) := by
  induction l generalizing base with
  | nil => rfl
  | cons s rest ih => simp [stepRowsOf, stepRowFKOk, ih]

/-- C7 amended: `createWorkflowTemplate` performs no application-level validation
and never raises ValidationError — duplicate step orders, rejection targets
referencing nothing, and transitions naming existing steps outside the supplied
set are accepted and persisted (see the counterexample); the call can fail only
through the client or the store (drizzle's `.values([])` throw when the step list
is non-empty and the transition list empty, and the role / endpoint foreign
keys), every failure aborting the transaction with nothing persisted.  This
theorem gives the committing case: when every step's role exists and — whenever
the step list is non-empty — the transition list is non-empty with endpoints
referencing visible step rows, the call succeeds and persists the template, one
step row per input step carrying the fresh template id and the input's fields,
and the transitions, touching no other table. -/
theorem createWorkflowTemplate_persists_without_validation
    (db : DB) (name description : String) (stepsIn : List StepInput)
    (transIn : List TransitionInput)
    (hroles : stepsIn.all (fun s => db.roles.any (fun r => r.id == s.roleId)) = true)
    (htrans : stepsIn.length > 0 →
      transIn ≠ [] ∧
      (transRowsOf (db.nextId + 1 + stepsIn.length) db.now transIn).all
        (transRowFKOk
          (db.steps ++ stepRowsOf (db.nextId + 1) db.nextId db.now stepsIn)) = true) :
    ∃ db' tpl,
      createWorkflowTemplate db name description stepsIn transIn = .ok (db', tpl) ∧
      tpl.name = name ∧ tpl.description = description ∧ tpl.isActive = true ∧
      db'.templates = db.templates ++ [tpl] ∧
      db'.steps.take db.steps.length = db.steps ∧
      (db'.steps.drop db.steps.length).map
          (fun s => (s.workflowTemplateId, s.stepOrder, s.roleId, s.canModify,
                     s.rejectionStepId))
        = stepsIn.map (fun s => (tpl.id, s.stepOrder, s.roleId, s.canModify,
                                 s.rejectionStepId)) ∧
      db'.transitions.take db.transitions.length = db.transitions ∧
      db'.instances = db.instances ∧ db'.actions = db.actions ∧
      db'.assignments = db.assignments ∧ db'.users = db.users ∧
      db'.userRoles = db.userRoles ∧ db'.roles = db.roles := by
  have hfk : (stepRowsOf (db.nextId + 1) db.nextId db.now stepsIn).all (stepRowFKOk db)
      = true := by
    rw [stepRowsOf_fk]
    exact hroles
  unfold createWorkflowTemplate
  dsimp only
  by_cases hpos : stepsIn.length > 0
  · obtain ⟨hne, hfk2⟩ := htrans hpos
    have hemp : transIn.isEmpty = false := by
      cases transIn with
      | nil => exact absurd rfl hne
      | cons a l => rfl
    rw [hfk, hemp, hfk2]
    simp only [Bool.not_true, Bool.false_eq_true, if_false, if_pos hpos]
    refine ⟨_, _, rfl, rfl, rfl, rfl, rfl, ?_, ?_, ?_, rfl, rfl, rfl, rfl, rfl, rfl⟩
    · simp [tick, List.take_left]
    · simp only [tick, List.drop_left]
      exact stepRowsOf_map_fields _ _ _ _
    · simp [tick, List.take_left]
  · rw [hfk]
    simp only [Bool.not_true, Bool.false_eq_true, if_false, if_neg hpos]
    refine ⟨_, _, rfl, rfl, rfl, rfl, rfl, ?_, ?_, ?_, rfl, rfl, rfl, rfl, rfl, rfl⟩
    · simp [tick, List.take_left]
    · simp only [tick, List.drop_left]
      exact stepRowsOf_map_fields _ _ _ _
    · simp [tick]

/-- Fixture for the C7 witness: a single role. -/
def dbOneRole : DB :=
  { users := [], roles := [{ id := 1, name := "R1" }], userRoles := [],
    templates := [], steps := [], transitions := [], instances := [],
    assignments := [], actions := [], nextId := 1, now := 0 }

/-- C7 witness input: one step naming the existing role. -/
def witnessSteps : List StepInput :=
  [{ name := "s", stepOrder := 1, roleId := 1, isMandatory := true,
     canModify := false, rejectionStepId := none }]

/-- C7 witness input: one transition whose endpoints name the created step
(id 2). -/
def witnessTransitions : List TransitionInput :=
  [{ fromStepId := 2, toStepId := 2, conditionType := none, conditionValue := none }]

/-- Witness for C7's amended theorem at a concrete committing call. -/
theorem createWorkflowTemplate_persists_without_validation_witness :
    ∃ db' tpl,
      createWorkflowTemplate dbOneRole "T" "d" witnessSteps witnessTransitions =
        .ok (db', tpl) ∧
      tpl.name = "T" ∧ tpl.description = "d" ∧ tpl.isActive = true ∧
      db'.templates = dbOneRole.templates ++ [tpl] ∧
      db'.steps.take dbOneRole.steps.length = dbOneRole.steps ∧
      (db'.steps.drop dbOneRole.steps.length).map
          (fun s => (s.workflowTemplateId, s.stepOrder, s.roleId, s.canModify,
                     s.rejectionStepId))
        = witnessSteps.map (fun s => (tpl.id, s.stepOrder, s.roleId, s.canModify,
                                      s.rejectionStepId)) ∧
      db'.transitions.take dbOneRole.transitions.length = dbOneRole.transitions ∧
      db'.instances = dbOneRole.instances ∧ db'.actions = dbOneRole.actions ∧
      db'.assignments = dbOneRole.assignments ∧ db'.users = dbOneRole.users ∧
      db'.userRoles = dbOneRole.userRoles ∧ db'.roles = dbOneRole.roles :=
  createWorkflowTemplate_persists_without_validation dbOneRole "T" "d"
    witnessSteps witnessTransitions (by decide) (by decide)

/-- C10: every committed call persists transition rows carrying exactly the
caller-supplied `fromStepId` / `toStepId` values — the code spreads the input rows
and never remaps them to the ids of the steps created in the same call — and none
at all when the supplied step list is empty; moreover with an empty step list the
`if (steps.length > 0)` guard skips the transition insert entirely and the call
always succeeds and returns the template, persisting no transition row even if
transitions were supplied. -/
theorem createWorkflowTemplate_transitions_verbatim_or_skipped
    (db : DB) (name description : String) (stepsIn : List StepInput)
    (transIn : List TransitionInput) :
    (∀ db' tpl,
      createWorkflowTemplate db name description stepsIn transIn = .ok (db', tpl) →
      (db'.transitions.drop db.transitions.length).map
          (fun t => (t.fromStepId, t.toStepId))
        = (if stepsIn.length > 0 then
             transIn.map (fun t => (t.fromStepId, t.toStepId))
           else [])) ∧
    (stepsIn = [] →
      ∃ db' tpl,
        createWorkflowTemplate db name description stepsIn transIn = .ok (db', tpl) ∧
        db'.transitions = db.transitions) := by
  constructor
  · intro db' tpl hok
    unfold createWorkflowTemplate at hok
    dsimp only at hok
    split at hok
    · exact absurd hok (by simp)
    · split at hok
      next hpos =>
        split at hok
        · exact absurd hok (by simp)
        · split at hok
          · exact absurd hok (by simp)
          · simp only [Except.ok.injEq, Prod.mk.injEq] at hok
            obtain ⟨hdb, _⟩ := hok
            subst hdb
            rw [if_pos hpos]
            simp only [tick, List.drop_left]
            exact transRowsOf_map_endpoints _ _ _
      next hpos =>
        simp only [Except.ok.injEq, Prod.mk.injEq] at hok
        obtain ⟨hdb, _⟩ := hok
        subst hdb
        rw [if_neg hpos]
        simp [tick]
  · intro hempty
    subst hempty
    unfold createWorkflowTemplate
    dsimp only
    simp only [stepRowsOf, List.all_nil, Bool.not_true, Bool.false_eq_true, if_false]
    simp only [List.length_nil, gt_iff_lt, Nat.lt_irrefl, if_false]
    exact ⟨_, _, rfl, rfl⟩

/-- C9: `getAssignedWorkflows` is a read-only projection — the state component of
its result is the input state unchanged — and the returned sequence is exactly the
instances whose `currentAssigneeId` equals the given user (further filtered by
status when one is supplied), ordered by creation time ascending, each enriched
with its template, current step and current assignee. -/
theorem getAssignedWorkflows_readonly_filtered_sorted_enriched
    (db : DB) (userId : String) (status : Option InstanceStatus) :
    (getAssignedWorkflows db userId status).1 = db ∧
    ((getAssignedWorkflows db userId status).2.map (fun e => e.inst)).Perm
      (db.instances.filter (assignedFilter userId status)) ∧
    List.Sorted createdAtLe
      ((getAssignedWorkflows db userId status).2.map (fun e => e.inst)) ∧
    (∀ e ∈ (getAssignedWorkflows db userId status).2,
      e.inst ∈ db.instances ∧ e.inst.currentAssigneeId = some userId ∧
      (∀ s, status = some s → e.inst.status = s) ∧
      e = enrich db e.inst) := by
  have hmap : (getAssignedWorkflows db userId status).2.map (fun e => e.inst)
      = (db.instances.filter (assignedFilter userId status)).insertionSort createdAtLe := by
    simp [getAssignedWorkflows, enrich, List.map_map, Function.comp_def]
  refine ⟨rfl, ?_, ?_, ?_⟩
  · rw [hmap]
    exact List.perm_insertionSort _ _
  · rw [hmap]
    exact List.sorted_insertionSort _ _
  · intro e he
    simp only [getAssignedWorkflows, List.mem_map] at he
    obtain ⟨i, hi, rfl⟩ := he
    have hi' : i ∈ db.instances.filter (assignedFilter userId status) :=
      (List.perm_insertionSort createdAtLe _).subset hi
    rw [List.mem_filter] at hi'
    obtain ⟨hmem, hcond⟩ := hi'
    simp only [assignedFilter, Bool.and_eq_true, decide_eq_true_eq] at hcond
    obtain ⟨hassignee, hstatus⟩ := hcond
    refine ⟨hmem, hassignee, ?_, rfl⟩
    intro s hs
    subst hs
    simpa [decide_eq_true_eq] using hstatus

/-- A committed rejection-routing transition leaves the audit log and the
transaction clock untouched (it only rewrites the instance row and the
assignment rows). -/
theorem handleRejection_ok_frame {db : DB} {inst : WorkflowInstance} {r : Nat}
    {p : DB × WorkflowInstance}
    (h : handleRejection db inst r = .ok p) :
    p.1.actions = db.actions ∧ p.1.now = db.now := by
  unfold handleRejection at h
  split at h
  · exact absurd h (by simp)
  · split at h
    · exact absurd h (by simp)
    · simp only [Except.ok.injEq] at h
      subst h
      exact ⟨rfl, rfl⟩

/-- A committed approval transition leaves the audit log and the transaction clock
untouched. -/
theorem handleApproval_ok_frame {evalCond : CondEval} {db : DB}
    {inst : WorkflowInstance} {ts : List WorkflowStepTransition}
    {p : DB × WorkflowInstance}
    (h : handleApproval evalCond db inst ts = .ok p) :
    p.1.actions = db.actions ∧ p.1.now = db.now := by
  unfold handleApproval at h
  split at h
  · split at h
    · exact absurd h (by simp)
    · split at h
      · exact absurd h (by simp)
      · simp only [Except.ok.injEq] at h
        subst h
        exact ⟨rfl, rfl⟩
  · simp only [Except.ok.injEq] at h
    subst h
    exact ⟨rfl, rfl⟩

/-- Inversion for a mapped `Except` that committed. -/
theorem exceptMap_ok_elim {ε α β : Type _} {f : α → β} {x : Except ε α} {b : β}
    (h : Except.map f x = .ok b) : ∃ a, x = .ok a ∧ b = f a := by
  cases x with
  | error e => simp [Except.map] at h
  | ok a =>
    refine ⟨a, rfl, ?_⟩
    simpa [Except.map] using h.symm

/-- Every committed `takeAction` call appends exactly one `workflowActions` row —
stamped with the transaction time — and advances the clock; no existing row is
touched. -/
theorem takeAction_ok_appends
    {evalCond : CondEval} {db : DB} {instanceId : Nat} {userId : String}
    {actionType : ActionType} {comments : Option String} {dm : Option CondValue}
    {db' : DB} {inst' : WorkflowInstance}
    (hok : takeAction evalCond db instanceId userId actionType comments dm =
      .ok (db', inst')) :
    ∃ a : WorkflowAction,
      db'.actions = db.actions ++ [a] ∧ a.workflowInstanceId = instanceId ∧
      a.userId = userId ∧ a.actionType = actionType ∧ a.createdAt = db.now ∧
      db'.now = db.now + 1 := by
  unfold takeAction at hok
  split at hok
  · exact absurd hok (by simp)
  next inst hfind =>
    have hid : inst.id = instanceId := by
      have := List.find?_some hfind
      simpa using this
    split at hok
    · exact absurd hok (by simp)
    next hauth =>
      refine ⟨actionRowOf db inst userId actionType comments dm, ?_⟩
      cases actionType with
      | REJECT =>
        simp only at hok
        split at hok
        next r hr =>
          split at hok
          · obtain ⟨p, hX, hb⟩ := exceptMap_ok_elim hok
            obtain ⟨hact, hnow⟩ := handleRejection_ok_frame hX
            have hdb : db' = tick p.1 := congrArg Prod.fst hb
            refine ⟨?_, hid ▸ rfl, rfl, rfl, rfl, ?_⟩
            · rw [hdb]
              simpa [tick] using hact
            · rw [hdb]
              simpa [tick] using congrArg Nat.succ hnow
          · obtain ⟨p, hX, hb⟩ := exceptMap_ok_elim hok
            simp only [Except.ok.injEq] at hX
            have hdb : db' = tick p.1 := congrArg Prod.fst hb
            subst hX
            exact ⟨by rw [hdb]; simp [tick], hid ▸ rfl, rfl, rfl, rfl,
              by rw [hdb]; simp [tick]⟩
        next hr =>
          obtain ⟨p, hX, hb⟩ := exceptMap_ok_elim hok
          simp only [Except.ok.injEq] at hX
          have hdb : db' = tick p.1 := congrArg Prod.fst hb
          subst hX
          exact ⟨by rw [hdb]; simp [tick], hid ▸ rfl, rfl, rfl, rfl,
            by rw [hdb]; simp [tick]⟩
      | APPROVE =>
        simp only at hok
        obtain ⟨p, hX, hb⟩ := exceptMap_ok_elim hok
        obtain ⟨hact, hnow⟩ := handleApproval_ok_frame hX
        have hdb : db' = tick p.1 := congrArg Prod.fst hb
        refine ⟨?_, hid ▸ rfl, rfl, rfl, rfl, ?_⟩
        · rw [hdb]
          simpa [tick] using hact
        · rw [hdb]
          simpa [tick] using congrArg Nat.succ hnow
      | MODIFY =>
        simp only at hok
        obtain ⟨p, hX, hb⟩ := exceptMap_ok_elim hok
        simp only [Except.ok.injEq] at hX
        have hdb : db' = tick p.1 := congrArg Prod.fst hb
        subst hX
        exact ⟨by rw [hdb]; simp [tick], hid ▸ rfl, rfl, rfl, rfl,
          by rw [hdb]; simp [tick]⟩

/-- C8 amended: every `takeAction` call that passes authorization AND commits
(an error anywhere later — e.g. no eligible assignee for the destination step —
aborts the whole transaction, rolling the audit row back; see the counterexample)
appends exactly one new audit row, timestamped strictly after every audit row
already stored (given that stored timestamps precede the current transaction
time), and the log is append-only: the prior rows reappear unchanged in front of
the new one. -/
theorem takeAction_success_appends_one_monotonic_audit_row
    (evalCond : CondEval) (db db' : DB) (instanceId : Nat) (userId : String)
    (actionType : ActionType) (comments : Option String) (dm : Option CondValue)
    (inst' : WorkflowInstance)
    (hBounded : ∀ a ∈ db.actions, a.createdAt < db.now)
    (hok : takeAction evalCond db instanceId userId actionType comments dm =
      .ok (db', inst')) :
    ∃ a : WorkflowAction,
      db'.actions = db.actions ++ [a] ∧
      a.workflowInstanceId = instanceId ∧
      (∀ prior ∈ db.actions, prior.createdAt < a.createdAt) ∧
      (∀ q ∈ db'.actions, q.createdAt < db'.now) := by
  obtain ⟨a, happ, hinst, _, _, hcreated, hnow⟩ := takeAction_ok_appends hok
  refine ⟨a, happ, hinst, ?_, ?_⟩
  · intro prior hp
    rw [hcreated]
    exact hBounded prior hp
  · intro q hq
    rw [happ] at hq
    rw [hnow]
    rcases List.mem_append.mp hq with h | h
    · exact Nat.lt_succ_of_lt (hBounded q h)
    · rw [List.mem_singleton.mp h, hcreated]
      exact Nat.lt_succ_self _

/-- The committed state of the C8 witness call (a MODIFY on `dbRejectNoTarget`). -/
def dbAfterModify : DB :=
  { dbRejectNoTarget with
    actions := [actionRowOf dbRejectNoTarget instActiveU1 "u1" .MODIFY none none],
    nextId := 21, now := 6 }

/-- Witness for C8's amended theorem at a concrete committed call. -/
theorem takeAction_success_appends_one_monotonic_audit_row_witness :
    ∃ a : WorkflowAction,
      dbAfterModify.actions = dbRejectNoTarget.actions ++ [a] ∧
      a.workflowInstanceId = 1 ∧
      (∀ prior ∈ dbRejectNoTarget.actions, prior.createdAt < a.createdAt) ∧
      (∀ q ∈ dbAfterModify.actions, q.createdAt < dbAfterModify.now) :=
  takeAction_success_appends_one_monotonic_audit_row condFalse dbRejectNoTarget
    dbAfterModify 1 "u1" .MODIFY none none instActiveU1 (by decide) (by rfl)

/-- C1: an APPROVE accepted on an ACTIVE instance follows the Transition Engine
(`handleApproval`, modelled from §4.4 since its code is not under `src/`): the
first satisfied transition of the current step in ascending-identity order — an
unconditioned transition being always satisfied — determines the destination
step (when the destination exists and its role resolves, the call commits with
the instance moved there, still ACTIVE); and when no outgoing transition is
satisfied, the call commits with the instance COMPLETED, the assignee cleared and
the completion time set, the updated row stored. -/
theorem takeAction_approve_follows_transition_engine
    (evalCond : CondEval) (db : DB) (instanceId : Nat) (userId : String)
    (comments : Option String) (dm : Option CondValue)
    (inst : WorkflowInstance) (cs : WorkflowStep)
    (hfind : db.instances.find? (fun i => i.id == instanceId) = some inst)
    (hact : inst.status = .ACTIVE)
    (hauth : inst.currentAssigneeId = some userId)
    (hstep : db.steps.find? (fun s => s.id == inst.currentStepId) = some cs) :
    (∀ t ∈ firstSatisfiedTransition evalCond inst (fromTransitionsOf db cs.id),
      ∀ dest ∈ db.steps.find? (fun s => s.id == t.toStepId),
      ∀ uid ∈ resolveAssignee db dest.roleId,
      ∃ p : DB × WorkflowInstance,
        takeAction evalCond db instanceId userId .APPROVE comments dm = .ok p ∧
        p.2.currentStepId = t.toStepId ∧ p.2.status = .ACTIVE ∧
        p.2.currentAssigneeId = some uid ∧ p.2 ∈ p.1.instances) ∧
    (firstSatisfiedTransition evalCond inst (fromTransitionsOf db cs.id) = none →
      ∃ p : DB × WorkflowInstance,
        takeAction evalCond db instanceId userId .APPROVE comments dm = .ok p ∧
        p.2.status = .COMPLETED ∧ p.2.currentAssigneeId = none ∧
        p.2.completedAt = some db.now ∧ p.2 ∈ p.1.instances) := by
  have hmem : inst ∈ db.instances := List.mem_of_find?_eq_some hfind
  constructor
  · intro t ht dest hdest uid huid
    rw [Option.mem_def] at ht hdest huid
    have hdestid : dest.id = t.toStepId := by
      have := List.find?_some hdest
      simpa using this
    unfold takeAction
    rw [hfind]
    simp only [hauth, ne_eq, not_true_eq_false, if_false, hstep]
    unfold handleApproval
    rw [ht]
    simp only [hdest]
    unfold resolveAssignee at huid ⊢
    simp only [huid]
    refine ⟨_, rfl, ?_, ?_, ?_, ?_⟩
    · exact hdestid
    · exact hact
    · rfl
    · simp only [tick]
      exact List.mem_map.mpr ⟨inst, hmem, by simp⟩
  · intro hnone
    unfold takeAction
    rw [hfind]
    simp only [hauth, ne_eq, not_true_eq_false, if_false, hstep]
    unfold handleApproval
    rw [hnone]
    refine ⟨_, rfl, rfl, rfl, rfl, ?_⟩
    simp only [tick]
    exact List.mem_map.mpr ⟨inst, hmem, by simp⟩

/-- Witness for C1 at a concrete state: the step of `dbRejectNoTarget` has no
outgoing transitions, so the accepted APPROVE completes the instance. -/
theorem takeAction_approve_follows_transition_engine_witness :
    ∃ p : DB × WorkflowInstance,
      takeAction condFalse dbRejectNoTarget 1 "u1" .APPROVE none none = .ok p ∧
      p.2.status = .COMPLETED ∧ p.2.currentAssigneeId = none ∧
      p.2.completedAt = some dbRejectNoTarget.now ∧ p.2 ∈ p.1.instances :=
  (takeAction_approve_follows_transition_engine condFalse dbRejectNoTarget 1 "u1"
      none none instActiveU1 stepNoRejection (by rfl) (by rfl) (by rfl) (by rfl)).2
    (by decide)
